import Mathlib

/-!
Verification of the intervalsicu-plan-sync repository.

This file gives a shallow embedding, in Lean 4, of the pure computational
core of the repository:

* `src/src/utils/workout-formatter.ts` — the interval text formatter,
* `src/unnamed/part_004` (workout-validator) — the workout/plan validator,
* `src/src/utils/json-parser.ts` — the direct JSON plan import,
* `src/unnamed/part_003` (intervals-icu client) — request construction and
  the sequential batch uploader.

JavaScript strings are modelled as Lean `String`s and string operations are
implemented over the underlying character list so that every definition is
executable and reduces inside the kernel.  JavaScript numbers holding
durations/distances are modelled as `Nat` (the code only ever feeds
non-negative quantities to the formatter); the validator's range checks,
which can see negative inputs, use `Int`.  Truthiness tests of the source
(`if (x)` on possibly-absent strings/numbers) are embedded explicitly:
an absent value, the empty string and the number 0 are falsy.

Network effects in the uploader are abstracted by an explicit list of
per-request outcomes (`none` = the POST succeeded, `some msg` = it failed
with message `msg`), and the id generators of the JSON importer (which use
`Date.now`/`Math.random`) are abstracted by explicitly passed id supplies.
-/

namespace IntervalsIcu

/-! ## JavaScript string primitives -/

/-- Character-list view of a string. -/
def strChars (s : String) : List Char := s.data

/-- Build a string from its character list. -/
def ofChars (cs : List Char) : String := String.mk cs

/-- Model of `String.prototype.toLowerCase` (ASCII case folding suffices for
every string this code base manipulates). -/
def jsToLower (s : String) : String := ofChars (s.data.map Char.toLower)

/-- Model of `String.prototype.toUpperCase`. -/
def jsToUpper (s : String) : String := ofChars (s.data.map Char.toUpper)

/-- Model of `String.prototype.startsWith`. -/
def jsStartsWith (s pat : String) : Bool := pat.data.isPrefixOf s.data

/-- Does `pat` occur as a contiguous subsequence of `s`? -/
def listContainsSeq (pat : List Char) : List Char → Bool
  | [] => pat.isEmpty
  | c :: cs => pat.isPrefixOf (c :: cs) || listContainsSeq pat cs

/-- Model of `String.prototype.includes`. -/
def jsIncludes (s pat : String) : Bool := listContainsSeq pat.data s.data

/-- Model of `String.prototype.trim` (both the source strings and the
generated text only ever carry ASCII whitespace). -/
def jsTrim (s : String) : String :=
  ofChars (((s.data.dropWhile Char.isWhitespace).reverse.dropWhile Char.isWhitespace).reverse)

/-- Model of `String.prototype.split('\n')`: splitting the empty string
yields `[""]`, like in JavaScript. -/
def splitNewlineAux (acc : List Char) : List Char → List String
  | [] => [ofChars acc.reverse]
  | c :: cs =>
    if c = '\n' then ofChars acc.reverse :: splitNewlineAux [] cs
    else splitNewlineAux (c :: acc) cs

/-- Split a string at newline characters. -/
def jsSplitNewline (s : String) : List String := splitNewlineAux [] s.data

/-- Model of `Array.prototype.join(sep)`. -/
def joinWith (sep : String) : List String → String
  | [] => ""
  | [x] => x
  | x :: xs => x ++ sep ++ joinWith sep xs

/-- Model of `String.prototype.replace(pat, '')` with a plain-string
pattern: remove the first occurrence of `pat`. -/
def removeFirstSeq (pat : List Char) : List Char → List Char
  | [] => []
  | c :: cs =>
    if pat.isPrefixOf (c :: cs) then (c :: cs).drop pat.length
    else c :: removeFirstSeq pat cs

/-- Remove the first occurrence of `pat` from `s`. -/
def jsRemoveFirst (s pat : String) : String := ofChars (removeFirstSeq pat.data s.data)

/-- Truthiness of an optional string: `undefined` and `""` are falsy. -/
def jsTruthyStr : Option String → Bool
  | none => false
  | some s => s ≠ ""

/-- Truthiness of an optional number: `undefined` and `0` are falsy. -/
def jsTruthyNat : Option Nat → Bool
  | none => false
  | some n => n ≠ 0

/-- Model of `x || d` on an optional string operand. -/
def jsOrStr (o : Option String) (d : String) : String :=
  match o with
  | some s => if s = "" then d else s
  | none => d

/-- Record lookup on an object literal, modelled as an association list
with first-match-wins lookup. -/
def recordGet (pm : List (String × String)) (k : String) : Option String :=
  List.lookup k pm

/-! ## Data model (src/src/types/workout.ts)

The TypeScript `WorkoutType` and `IntensityLevel` are string unions; they
are modelled as plain strings carrying the same values, which is what the
code compares against at run time. -/

/-- Ramp range of an interval; the source field `end` is called `stop`
here because `end` is reserved in Lean. -/
structure Ramp where
  start : String
  stop : String
deriving Repr, DecidableEq

/-- Structured interval step (`Interval` in workout.ts).  The source field
`repeat` is called `repeatCount` here because `repeat` is reserved in
Lean.  `durationType` keeps its source representation as an optional
string with values `"time"`/`"distance"`. -/
structure Interval where
  repeatCount : Nat
  duration : Nat
  durationType : Option String
  intensity : String
  recovery : Option Nat
  recoveryIntensity : Option String
  ramp : Option Ramp
deriving Repr, DecidableEq

/-- Workout record (`Workout` in workout.ts).  `duration` is minutes,
`distance` kilometers, `date` an ISO `YYYY-MM-DD` string. -/
structure Workout where
  id : String
  date : String
  type : String
  name : String
  description : String
  duration : Option Nat
  distance : Option Nat
  intensity : Option String
  intervals : Option (List Interval)
  notes : Option String
deriving Repr, DecidableEq

/-- Training plan record (`TrainingPlan` in workout.ts). -/
structure TrainingPlan where
  id : String
  name : String
  startDate : String
  endDate : String
  weeks : Nat
  workouts : List Workout
  source : Option String
deriving Repr, DecidableEq

/-! ## Interval text formatter (src/src/utils/workout-formatter.ts) -/

/-- Test of the regular expression `^\d+:\d+` of formatIntensity: a
non-empty run of digits, a colon, and at least one further digit. -/
def digitsColonDigits (s : String) : Bool :=
  decide (s.data.takeWhile Char.isDigit ≠ []) &&
    (match s.data.dropWhile Char.isDigit with
     | ':' :: c :: _ => c.isDigit
     | _ => false)

/-- Test of the regular expression `/^Z[1-5]$/i` of formatIntensity. -/
def isZoneToken (s : String) : Bool :=
  match s.data with
  | [c1, c2] => (c1 = 'Z' || c1 = 'z') && ('1' ≤ c2 && c2 ≤ '5')
  | _ => false

/-- Fixed lexicon `intensityMap` of formatIntensity (lines 240-263); the
`easy` entry depends on the workout type exactly as in the source. -/
def intensityMap (workoutType : String) : List (String × String) :=
  [ ("easy", if workoutType = "run" then "Easy pace" else "Z2"),
    ("recovery", "Z1"),
    ("endurance", "Z2"),
    ("aerobic", "Z2"),
    ("tempo", "Z3"),
    ("threshold", "Z4"),
    ("lactate threshold", "Z4"),
    ("lt", "Z4"),
    ("vo2 max", "Z5"),
    ("vo2max", "Z5"),
    ("intervals", "Z5"),
    ("5k pace", "5K pace"),
    ("10k pace", "10K pace"),
    ("marathon pace", "Marathon pace"),
    ("half marathon pace", "Half Marathon pace"),
    ("ftp", "100%"),
    ("sweet spot", "88-93%") ]

/-- Zone / percent / lexicon fallthrough of formatIntensity (lines
229-266), reached when no truthy pace-mapping entry exists for the label. -/
def formatIntensityFallback (intensity : String) (workoutType : String) : String :=
  if isZoneToken intensity then jsToUpper intensity
  else if jsIncludes intensity "%" then intensity
  else
    let normalized := jsTrim (jsToLower intensity)
    match recordGet (intensityMap workoutType) normalized with
    | some v => if v = "" then intensity else v
    | none => intensity

/-- Embedding of `formatIntensity` (workout-formatter.ts lines 202-267).
The source guard `if (paceMapping[intensity])` is a truthiness test, so an
entry mapping the label to the empty string behaves like an absent entry. -/
def formatIntensity (intensity : String) (workoutType : String)
    (paceMapping : List (String × String)) : String :=
  if intensity = "" then
    (if workoutType = "run" then "Easy pace" else "moderate")
  else
    match recordGet paceMapping intensity with
    | some mappedValue =>
      if mappedValue = "" then formatIntensityFallback intensity workoutType
      else
        if jsIncludes mappedValue "/km" || jsIncludes mappedValue "/mi" ||
            digitsColonDigits mappedValue then
          if !(jsIncludes (jsToLower mappedValue) "pace") then mappedValue ++ " Pace"
          else mappedValue
        else mappedValue
    | none => formatIntensityFallback intensity workoutType

/-- Rendering of `(d / 1000).toFixed(1)` for a natural number of meters:
the exact value `d / 1000` rounded to one decimal place (ties away from
zero, as `toFixed` specifies for exactly representable values). -/
def toFixed1km (d : Nat) : String :=
  let tenths := (d + 50) / 100
  toString (tenths / 10) ++ "." ++ toString (tenths % 10)

/-- Duration rendering of `formatSingleInterval` (lines 131-148), factored
out of the inline `durationStr` computation. -/
def workDurationStr (isDistanceBased : Bool) (duration : Nat) : String :=
  if isDistanceBased then
    if duration ≥ 1000 then toFixed1km duration ++ "km"
    else toString duration ++ "m"
  else
    if duration ≥ 60 then
      let minutes := duration / 60
      let seconds := duration % 60
      if seconds > 0 then toString minutes ++ "m" ++ toString seconds ++ "s"
      else toString minutes ++ "m"
    else toString duration ++ "s"

/-- Duration rendering of `formatRecovery` (lines 174-189), factored out
of the inline `recoveryStr` computation; the source duplicates the code of
the work-segment rendering rather than sharing it. -/
def recoveryDurationStr (isDistanceBased : Bool) (recovery : Nat) : String :=
  if isDistanceBased then
    if recovery ≥ 1000 then toFixed1km recovery ++ "km"
    else toString recovery ++ "m"
  else
    if recovery ≥ 60 then
      let minutes := recovery / 60
      let seconds := recovery % 60
      if seconds > 0 then toString minutes ++ "m" ++ toString seconds ++ "s"
      else toString minutes ++ "m"
    else toString recovery ++ "s"

/-- Embedding of `formatSingleInterval` (lines 123-159). -/
def formatSingleInterval (interval : Interval) (workoutType : String)
    (paceMapping : List (String × String)) : String :=
  let isDistanceBased := interval.durationType = some "distance"
  let durationStr := workDurationStr isDistanceBased interval.duration
  let intensityStr := formatIntensity interval.intensity workoutType paceMapping
  match interval.ramp with
  | some r => durationStr ++ " Ramp " ++ r.start ++ "-" ++ r.stop
  | none => durationStr ++ " " ++ intensityStr

/-- Embedding of `formatRecovery` (lines 164-196); the guard
`if (!interval.recovery) return ''` is a truthiness test, so a missing or
zero recovery yields the empty string. -/
def formatRecovery (interval : Interval) (workoutType : String)
    (paceMapping : List (String × String)) : String :=
  match interval.recovery with
  | none => ""
  | some r =>
    if r = 0 then ""
    else
      let isDistanceBased := interval.durationType = some "distance"
      let recoveryStr := recoveryDurationStr isDistanceBased r
      let recoveryIntensity := jsOrStr interval.recoveryIntensity "Easy"
      recoveryStr ++ " " ++ formatIntensity recoveryIntensity workoutType paceMapping

/-- Embedding of `formatIntervals` (lines 93-118): the imperative loop is
rendered as a left fold over the interval list, accumulating output lines. -/
def formatIntervals (intervals : List Interval) (workoutType : String)
    (paceMapping : List (String × String)) : String :=
  let lines := intervals.foldl
    (fun lines interval =>
      let lines :=
        if interval.repeatCount > 1 then lines ++ [toString interval.repeatCount ++ "x"]
        else lines
      let lines := lines ++ ["- " ++ formatSingleInterval interval workoutType paceMapping]
      if jsTruthyNat interval.recovery then
        lines ++ ["- " ++ formatRecovery interval workoutType paceMapping]
      else lines)
    []
  joinWith "\n" lines

/-! ### Phase detection (regex models)

The three regular expressions of detectWorkoutPhases / formatPhaseText are
embedded as direct scanning functions with the same (ordered-alternative,
greedy, backtracking) semantics on the strings this code can encounter. -/

/-- Tail of the phase-line patterns `:?\s*(.+)` applied after the keyword:
the optional colon and greedy whitespace are consumed with backtracking so
that the final `(.+)` group stays non-empty whenever possible. -/
def phraseTail (rest : String) : Option String :=
  let wsThenRest : List Char → Option (List Char) := fun cs =>
    if cs.isEmpty then none
    else
      let s := cs.dropWhile Char.isWhitespace
      if s.isEmpty then
        match cs.reverse with
        | c :: _ => some [c]
        | [] => none
      else some s
  match
    (if rest.data.head? = some ':' then
      match wsThenRest (rest.data.drop 1) with
      | some g => some g
      | none => wsThenRest rest.data
    else wsThenRest rest.data) with
  | some g => some (ofChars g)
  | none => none

/-- Match one keyword alternative of the patterns
`^(warmup|warm-up|warm up):?\s*(.+)/i` and
`^(cooldown|cool-down|cool down):?\s*(.+)/i` against a line, returning the
`(.+)` capture group from the original (non-lowercased) line. -/
def matchPhaseKeyword (variants : List String) (line : String) : Option String :=
  variants.findSome? fun v =>
    if jsStartsWith (jsToLower line) v then phraseTail (ofChars (line.data.drop v.data.length))
    else none

/-- Time-unit alternatives `(min|minute|minutes|m)/i` at the head of a
character list: ordered alternation, so `min` wins over `minute(s)` and a
bare `m` is tried last.  Returns the matched original characters. -/
def timeUnitAt (cs : List Char) : Option (List Char) :=
  if (cs.take 3).map Char.toLower = ['m', 'i', 'n'] then some (cs.take 3)
  else
    match cs with
    | c :: _ => if c.toLower = 'm' then some [c] else none
    | [] => none

/-- Leftmost match of `/(\d+)\s*(min|minute|minutes|m)/i` in a character
list: at each candidate start, the digit run and whitespace run are taken
greedily (shorter runs cannot help any alternative).  Returns the whole
matched text and the digits group. -/
def findTimeMatch : List Char → Option (List Char × List Char)
  | [] => none
  | c :: cs =>
    if c.isDigit then
      let digits := (c :: cs).takeWhile Char.isDigit
      let afterDigits := (c :: cs).dropWhile Char.isDigit
      let ws := afterDigits.takeWhile Char.isWhitespace
      let afterWs := afterDigits.dropWhile Char.isWhitespace
      match timeUnitAt afterWs with
      | some u => some (digits ++ ws ++ u, digits)
      | none => findTimeMatch cs
    else findTimeMatch cs

/-- Word-character test of the `\b` boundary (`[A-Za-z0-9_]`). -/
def isWordChar (c : Char) : Bool := c.isAlphanum || c = '_'

/-- Distance-unit alternatives `(km|k|miles?|m)\b/i` at the head of a
character list, each candidate checked for the trailing word boundary.
Returns the matched original characters. -/
def distanceUnitAt (cs : List Char) : Option (List Char) :=
  [ "km", "k", "miles", "mile", "m" ].findSome? fun cand =>
    let n := cand.data.length
    if (cs.take n).map Char.toLower = cand.data then
      match cs.drop n with
      | [] => some (cs.take n)
      | c :: _ => if isWordChar c then none else some (cs.take n)
    else none

/-- Leftmost match of `/(\d+)\s*(km|k|miles?|m)\b/i`; returns the whole
matched text, the digits group and the unit group. -/
def findDistanceMatch : List Char → Option (List Char × List Char × List Char)
  | [] => none
  | c :: cs =>
    if c.isDigit then
      let digits := (c :: cs).takeWhile Char.isDigit
      let afterDigits := (c :: cs).dropWhile Char.isDigit
      let ws := afterDigits.takeWhile Char.isWhitespace
      let afterWs := afterDigits.dropWhile Char.isWhitespace
      match distanceUnitAt afterWs with
      | some u => some (digits ++ ws ++ u, digits, u)
      | none => findDistanceMatch cs
    else findDistanceMatch cs

/-- Embedding of `formatPhaseText` (workout-formatter.ts lines 309-331). -/
def formatPhaseText (text : String) (paceMapping : List (String × String)) : String :=
  match findTimeMatch text.data with
  | some (matched, digits) =>
    let duration := ofChars digits
    let rest := jsTrim (jsRemoveFirst text (ofChars matched))
    let intensity := if rest = "" then "Easy" else rest
    "- " ++ duration ++ "m " ++ formatIntensity intensity "run" paceMapping
  | none =>
    match findDistanceMatch text.data with
    | some (matched, digits, unit) =>
      let distance := ofChars digits
      let unitLower := jsToLower (ofChars unit)
      let distanceStr :=
        if jsIncludes unitLower "k" then distance ++ "km" else distance ++ "m"
      let rest := jsTrim (jsRemoveFirst text (ofChars matched))
      let intensity := if rest = "" then "Easy" else rest
      "- " ++ distanceStr ++ " " ++ formatIntensity intensity "run" paceMapping
    | none => "- " ++ text

/-- Detected phases of a workout description.  The source type also has a
`mainSet` member, which `detectWorkoutPhases` never assigns. -/
structure WorkoutPhases where
  warmup : Option String := none
  mainSet : Option String := none
  cooldown : Option String := none
deriving Repr, DecidableEq

/-- Embedding of `detectWorkoutPhases` (lines 273-304): split the
description into trimmed non-empty lines and scan them, a warmup match
taking precedence over a cooldown match on the same line (`continue`), a
later match overwriting an earlier one. -/
def detectWorkoutPhases (description : String)
    (paceMapping : List (String × String)) : WorkoutPhases :=
  let lines := (jsSplitNewline description).map jsTrim |>.filter (· ≠ "")
  lines.foldl
    (fun phases line =>
      match matchPhaseKeyword ["warmup", "warm-up", "warm up"] line with
      | some g => { phases with warmup := some (formatPhaseText g paceMapping) }
      | none =>
        match matchPhaseKeyword ["cooldown", "cool-down", "cool down"] line with
        | some g => { phases with cooldown := some (formatPhaseText g paceMapping) }
        | none => phases)
    {}

/-- Embedding of `formatWorkoutForIntervalsICU` (lines 11-88).  All the
truthiness tests of the source (`workout.distance || workout.duration`,
`if (phases.warmup)`, …) are made explicit; the `else if (phases.mainSet)`
branch and the `hasAdditionalInfo` conditional are kept even though both
are unreachable or return the same value, mirroring the source. -/
def formatWorkoutForIntervalsICU (workout : Workout)
    (paceMapping : List (String × String)) : String :=
  let intervals0 := workout.intervals.getD []
  if intervals0.isEmpty &&
      !(jsTruthyNat workout.distance || jsTruthyNat workout.duration) then
    workout.description
  else
    let intervalsToFormat :=
      if intervals0.isEmpty then
        [{ repeatCount := 1,
           duration :=
             if jsTruthyNat workout.distance then (workout.distance.getD 0) * 1000
             else (workout.duration.getD 0) * 60,
           durationType :=
             if jsTruthyNat workout.distance then some "distance" else some "time",
           intensity := jsOrStr workout.intensity "Easy",
           recovery := none, recoveryIntensity := none, ramp := none }]
      else intervals0
    let phases := detectWorkoutPhases workout.description paceMapping
    let sections : List String := []
    let sections :=
      if jsTruthyStr phases.warmup then sections ++ ["Warmup", phases.warmup.getD "", ""]
      else sections
    let sections :=
      if intervalsToFormat.length > 0 then
        let sections :=
          if jsTruthyStr phases.warmup || jsTruthyStr phases.cooldown ||
              intervalsToFormat.length > 1 then
            sections ++ ["Main Set"]
          else sections
        sections ++ [formatIntervals intervalsToFormat workout.type paceMapping, ""]
      else
        if jsTruthyStr phases.mainSet then
          sections ++ ["Main Set", phases.mainSet.getD "", ""]
        else sections
    let sections :=
      if jsTruthyStr phases.cooldown then sections ++ ["Cooldown", phases.cooldown.getD "", ""]
      else sections
    let formatted := jsTrim (joinWith "\n" sections)
    if formatted = "" then workout.description
    else
      let hasAdditionalInfo :=
        workout.description.length > 20 && !(jsIncludes workout.description formatted)
      if hasAdditionalInfo then formatted else formatted

/-! ## Date model

`new Date("YYYY-MM-DD")` parses the string as a proleptic-Gregorian UTC
midnight; the parse yields an Invalid Date exactly when the month or the
day component is out of range for the given month/year.  Comparisons and
differences of two such Dates are comparisons and differences of their
epoch-day numbers. -/

/-- Digits of a character run folded into a natural number. -/
def digitsToNat (cs : List Char) : Nat :=
  cs.foldl (fun n c => n * 10 + (c.toNat - '0'.toNat)) 0

/-- Shape test for the regular expression `^\d{4}-\d{2}-\d{2}$`. -/
def iso8601Shape (s : String) : Bool :=
  match s.data with
  | [y1, y2, y3, y4, h1, m1, m2, h2, d1, d2] =>
    y1.isDigit && y2.isDigit && y3.isDigit && y4.isDigit && h1 = '-' &&
      m1.isDigit && m2.isDigit && h2 = '-' && d1.isDigit && d2.isDigit
  | _ => false

/-- Component extraction from a string of the `YYYY-MM-DD` shape. -/
def parseISOParts (s : String) : Option (Nat × Nat × Nat) :=
  match s.data with
  | [y1, y2, y3, y4, h1, m1, m2, h2, d1, d2] =>
    if y1.isDigit && y2.isDigit && y3.isDigit && y4.isDigit && h1 = '-' &&
        m1.isDigit && m2.isDigit && h2 = '-' && d1.isDigit && d2.isDigit then
      some (digitsToNat [y1, y2, y3, y4], digitsToNat [m1, m2], digitsToNat [d1, d2])
    else none
  | _ => none

/-- Gregorian leap-year rule. -/
def isLeapYear (y : Nat) : Bool :=
  y % 4 = 0 && (y % 100 ≠ 0 || y % 400 = 0)

/-- Number of days of a month. -/
def daysInMonth (y m : Nat) : Nat :=
  if m = 2 then (if isLeapYear y then 29 else 28)
  else if m = 4 || m = 6 || m = 9 || m = 11 then 30
  else 31

/-- Does `YYYY-MM-DD` denote a real calendar date (so that `new Date(s)`
yields a valid Date rather than NaN)? -/
def calendarValid (s : String) : Bool :=
  match parseISOParts s with
  | some (y, m, d) => 1 ≤ m && m ≤ 12 && 1 ≤ d && d ≤ daysInMonth y m
  | none => false

/-- Days since 1970-01-01 of a civil date (proleptic Gregorian), the
floor-division counting formula; equals `Date.UTC(y,m,d) / 86400000`. -/
def daysFromCivil (y m d : Int) : Int :=
  let yy := if m ≤ 2 then y - 1 else y
  let era := Int.fdiv yy 400
  let yoe := yy - era * 400
  let mp := Int.fmod (m + 9) 12
  let doy := Int.fdiv (153 * mp + 2) 5 + d - 1
  let doe := yoe * 365 + Int.fdiv yoe 4 - Int.fdiv yoe 100 + doy
  era * 146097 + doe - 719468

/-- Epoch-day number of a date string (`new Date(s).getTime() / 86400000`);
only ever consulted behind a validity guard, `0` otherwise. -/
def dateEpochDays (s : String) : Int :=
  match parseISOParts s with
  | some (y, m, d) => daysFromCivil y m d
  | none => 0

/-! ## Workout validator (src/unnamed/part_004, workout-validator) -/

namespace Validator

/-- Partially populated workout as the validator receives it
(`Partial<Workout>`); the numeric fields may be negative there, hence
`Int`. -/
structure PartialWorkout where
  id : Option String := none
  date : Option String := none
  type : Option String := none
  name : Option String := none
  description : Option String := none
  duration : Option Int := none
  distance : Option Int := none
  intensity : Option String := none
deriving Repr, DecidableEq

/-- Partially populated training plan (`Partial<TrainingPlan>`); a missing
or non-array `workouts` member is `none`. -/
structure PartialPlan where
  id : Option String := none
  name : Option String := none
  startDate : Option String := none
  endDate : Option String := none
  workouts : Option (List PartialWorkout) := none
deriving Repr, DecidableEq

/-- Validation outcome `{valid, errors}`. -/
structure ValidationResult where
  valid : Bool
  errors : List String
deriving Repr, DecidableEq

/-- Embedding of `isValidWorkoutType` (part_004 lines 8-11). -/
def isValidWorkoutType (t : String) : Bool :=
  ["run", "bike", "swim", "strength", "rest"].contains t

/-- Embedding of `isValidIntensity` (lines 16-19). -/
def isValidIntensity (s : String) : Bool :=
  ["easy", "moderate", "hard", "race"].contains s

/-- Embedding of `isValidISODate` (lines 24-32): the `YYYY-MM-DD` shape
test followed by the Date-validity test. -/
def isValidISODate (dateString : String) : Bool :=
  iso8601Shape dateString && calendarValid dateString

/-- Embedding of `validateWorkout` (lines 37-73): each rule pushes its
error string in source order and none of the rules short-circuits
another; the sequential pushes are rendered as an ordered concatenation
of per-rule blocks. -/
def validateWorkout (workout : PartialWorkout) : ValidationResult :=
  let errors : List String :=
    (if !jsTruthyStr workout.id then ["Workout ID is required"] else []) ++
    (if !jsTruthyStr workout.date then ["Workout date is required"]
     else if !isValidISODate (workout.date.getD "") then
       ["Invalid date format. Use YYYY-MM-DD"]
     else []) ++
    (if !jsTruthyStr workout.type then ["Workout type is required"]
     else if !isValidWorkoutType (workout.type.getD "") then
       ["Invalid workout type: " ++ workout.type.getD ""]
     else []) ++
    (if !jsTruthyStr workout.name then ["Workout name is required"] else []) ++
    (if !jsTruthyStr workout.description then ["Workout description is required"] else []) ++
    (match workout.duration with
     | some d => if d < 0 then ["Duration must be positive"] else []
     | none => []) ++
    (match workout.distance with
     | some d => if d < 0 then ["Distance must be positive"] else []
     | none => []) ++
    (if jsTruthyStr workout.intensity && !isValidIntensity (workout.intensity.getD "") then
       ["Invalid intensity: " ++ workout.intensity.getD ""]
     else [])
  { valid := errors.isEmpty, errors := errors }

/-- Per-workout error strings of `validateTrainingPlan`'s `forEach` loop
(lines 112-119): one aggregated, 1-based-index-prefixed string per invalid
workout. -/
def indexedWorkoutErrors : Nat → List PartialWorkout → List String
  | _, [] => []
  | i, w :: ws =>
    let v := validateWorkout w
    (if v.valid then [] else ["Workout " ++ toString (i + 1) ++ ": " ++ joinWith ", " v.errors])
      ++ indexedWorkoutErrors (i + 1) ws

/-- Embedding of `validateTrainingPlan` (lines 78-126): the sequential
error pushes are rendered as an ordered concatenation of per-rule blocks,
in source order — required fields, date-range ordering, then the
per-workout loop. -/
def validateTrainingPlan (plan : PartialPlan) : ValidationResult :=
  let errors : List String :=
    (if !jsTruthyStr plan.id then ["Plan ID is required"] else []) ++
    (if !jsTruthyStr plan.name then ["Plan name is required"] else []) ++
    (if !jsTruthyStr plan.startDate then ["Start date is required"]
     else if !isValidISODate (plan.startDate.getD "") then ["Invalid start date format"]
     else []) ++
    (if !jsTruthyStr plan.endDate then ["End date is required"]
     else if !isValidISODate (plan.endDate.getD "") then ["Invalid end date format"]
     else []) ++
    (match plan.workouts with
     | none => ["Workouts array is required"]
     | some ws => if ws.isEmpty then ["Plan must have at least one workout"] else []) ++
    (if jsTruthyStr plan.startDate && jsTruthyStr plan.endDate &&
        isValidISODate (plan.startDate.getD "") && isValidISODate (plan.endDate.getD "") then
       if dateEpochDays (plan.endDate.getD "") ≤ dateEpochDays (plan.startDate.getD "") then
         ["End date must be after start date"]
       else []
     else []) ++
    (match plan.workouts with
     | some ws => indexedWorkoutErrors 0 ws
     | none => [])
  { valid := errors.isEmpty, errors := errors }

/-- Embedding of `calculateWeeks` (lines 143-149):
`ceil(ceil(|diff in ms| / ms per day) / 7)`; the millisecond difference of
two date parses is an exact multiple of a day, so the inner `ceil` is the
absolute epoch-day difference. -/
def calculateWeeks (startDate endDate : String) : Nat :=
  let diffDays := (dateEpochDays endDate - dateEpochDays startDate).natAbs
  (diffDays + 6) / 7

end Validator

/-! ## Direct JSON plan import (src/src/utils/json-parser.ts) -/

namespace JsonParser

/-- Raw workout object of a parsed JSON file, after the dynamic `typeof`
tests: a member that is missing or of the wrong dynamic type is `none`. -/
structure RawWorkout where
  date : Option String := none
  type : Option String := none
  name : Option String := none
  description : Option String := none
  duration : Option Nat := none
  distance : Option Nat := none
  intensity : Option String := none
  intervals : Option (List Interval) := none
  notes : Option String := none
deriving Repr, DecidableEq

/-- Raw top-level plan object of a parsed JSON file. -/
structure RawPlan where
  name : Option String := none
  startDate : Option String := none
  endDate : Option String := none
  workouts : Option (List RawWorkout) := none
deriving Repr, DecidableEq

/-- Embedding of the module-local `validateWorkout` of json-parser.ts
(lines 28-81): the first violated rule yields the error; on success the
output workout carries the raw fields with the description defaulted to
the empty string, the id being assigned by the caller. -/
def validateWorkout (w : RawWorkout) (index : Nat) : Except String Workout :=
  if !jsTruthyStr w.date then
    .error ("Workout at index " ++ toString index ++
      " is missing a valid 'date' field (expected YYYY-MM-DD format)")
  else if !iso8601Shape (w.date.getD "") then
    .error ("Workout at index " ++ toString index ++ " has invalid date format: " ++
      w.date.getD "" ++ ". Expected YYYY-MM-DD")
  else if !jsTruthyStr w.type then
    .error ("Workout at index " ++ toString index ++ " is missing a valid 'type' field")
  else if !(["run", "bike", "swim", "strength", "rest"].contains (w.type.getD "")) then
    .error ("Workout at index " ++ toString index ++ " has invalid type: " ++
      w.type.getD "" ++ ". Expected one of: run, bike, swim, strength, rest")
  else if !jsTruthyStr w.name then
    .error ("Workout at index " ++ toString index ++ " is missing a valid 'name' field")
  else if jsTruthyStr w.intensity &&
      !(["easy", "moderate", "hard", "race"].contains (w.intensity.getD "")) then
    .error ("Workout at index " ++ toString index ++ " has invalid intensity: " ++
      w.intensity.getD "" ++ ". Expected one of: easy, moderate, hard, race")
  else
    .ok { id := "",
          date := w.date.getD "", type := w.type.getD "", name := w.name.getD "",
          description := w.description.getD "", duration := w.duration,
          distance := w.distance, intensity := w.intensity,
          intervals := w.intervals, notes := w.notes }

/-- Per-workout validation loop of `validateTrainingPlanJSON` (lines
123-134): fail on the first invalid workout, otherwise attach a generated
id (`generateWorkoutId` abstracted by the supply `workoutId`) to each. -/
def validateWorkouts (workoutId : Nat → String) :
    Nat → List RawWorkout → Except String (List Workout)
  | _, [] => .ok []
  | i, w :: ws =>
    match validateWorkout w i with
    | .error e => .error e
    | .ok vw =>
      match validateWorkouts workoutId (i + 1) ws with
      | .error e => .error e
      | .ok vws => .ok ({ vw with id := workoutId i } :: vws)

/-- Embedding of `validateTrainingPlanJSON` (json-parser.ts lines 86-147),
with the nondeterministic `generatePlanId` / `generateWorkoutId` supplied
explicitly.  Date members are checked against the `YYYY-MM-DD` shape
regular expression only; no calendar-validity or date-ordering test is
performed here. -/
def validateTrainingPlanJSON (planId : String) (workoutId : Nat → String)
    (data : RawPlan) : Except String TrainingPlan :=
  if !jsTruthyStr data.name then
    .error "Missing required field: 'name' (string)"
  else if !jsTruthyStr data.startDate then
    .error "Missing required field: 'startDate' (YYYY-MM-DD format)"
  else if !jsTruthyStr data.endDate then
    .error "Missing required field: 'endDate' (YYYY-MM-DD format)"
  else if !iso8601Shape (data.startDate.getD "") then
    .error ("Invalid startDate format: " ++ data.startDate.getD "" ++ ". Expected YYYY-MM-DD")
  else if !iso8601Shape (data.endDate.getD "") then
    .error ("Invalid endDate format: " ++ data.endDate.getD "" ++ ". Expected YYYY-MM-DD")
  else
    match data.workouts with
    | none => .error "Missing required field: 'workouts' (array)"
    | some ws =>
      if ws.isEmpty then .error "Workouts array is empty"
      else
        match validateWorkouts workoutId 0 ws with
        | .error e => .error e
        | .ok validatedWorkouts =>
          .ok { id := planId, name := data.name.getD "",
                startDate := data.startDate.getD "", endDate := data.endDate.getD "",
                weeks := Validator.calculateWeeks (data.startDate.getD "") (data.endDate.getD ""),
                workouts := validatedWorkouts, source := some "json-import" }

end JsonParser

/-! ## Upload client (src/unnamed/part_003, intervals-icu client) -/

/-- Result union `APIResult<T>` of types/api. -/
inductive APIResult (α : Type) where
  | success (data : α) : APIResult α
  | failure (error : String) : APIResult α
deriving Repr, DecidableEq

/-- Is an API result a success? -/
def APIResult.isSuccess {α : Type} : APIResult α → Bool
  | .success _ => true
  | .failure _ => false

/-- Event payload `IntervalsICUEvent` posted to the remote calendar. -/
structure IntervalsICUEvent where
  external_id : String
  category : String
  start_date_local : String
  name : String
  description : String
  type : Option String
  moving_time : Option Nat
  distance : Option Nat
deriving Repr, DecidableEq

/-- Category map of `formatWorkoutForAPI` (run→Run, bike→Ride, swim→Swim,
strength→WeightTraining). -/
def categoryMap : List (String × String) :=
  [("run", "Run"), ("bike", "Ride"), ("swim", "Swim"), ("strength", "WeightTraining")]

/-- Embedding of `formatWorkoutForAPI` (part_003, intervals-icu client
lines 811-845): the structured-text formatter is consulted only when the
workout has a non-empty `intervals` list, and then with the formatter's
default (empty) pace mapping. -/
def formatWorkoutForAPI (workout : Workout) : IntervalsICUEvent :=
  let formattedDate :=
    if jsIncludes workout.date "T" then workout.date else workout.date ++ "T00:00:00"
  let isRestDay := workout.type = "rest"
  let formattedDescription :=
    if (workout.intervals.getD []).length > 0 then formatWorkoutForIntervalsICU workout []
    else workout.description
  { external_id := workout.id,
    category := if isRestDay then "NOTE" else "WORKOUT",
    start_date_local := formattedDate,
    name := workout.name,
    description := formattedDescription,
    type :=
      if isRestDay then none
      else some (jsOrStr (recordGet categoryMap workout.type) "Run"),
    moving_time :=
      match workout.duration with
      | some d => if d ≠ 0 then some (d * 60) else none
      | none => none,
    distance :=
      match workout.distance with
      | some d => if d ≠ 0 then some (d * 1000) else none
      | none => none }

/-- Aggregate outcome record of `uploadWorkoutPlan`. -/
structure UploadResults where
  succeeded : Nat
  failed : Nat
  errors : List String
deriving Repr, DecidableEq

/-- Embedding of the sequential upload loop of `uploadWorkoutPlan`
(part_003 lines 905-929).  The network outcome of each
`uploadSingleWorkout` call is abstracted by the aligned `outcomes` entry:
`none` means the POST succeeded, `some msg` that it failed with message
`msg`.  The loop is rendered structurally; error strings accumulate in
iteration order. -/
def runUploads : List Workout → List (Option String) → UploadResults
  | w :: ws, outcome :: outs =>
    let rest := runUploads ws outs
    match outcome with
    | none => { rest with succeeded := rest.succeeded + 1 }
    | some e =>
      { succeeded := rest.succeeded, failed := rest.failed + 1,
        errors := (w.name ++ " (" ++ w.date ++ "): " ++ e) :: rest.errors }
  | _, _ => { succeeded := 0, failed := 0, errors := [] }

/-- Embedding of `uploadWorkoutPlan` (part_003 lines 896-941): run the
sequential uploads, then report aggregate failure with the joined
per-item messages when any item failed, and the counts otherwise. -/
def uploadWorkoutPlan (plan : TrainingPlan) (outcomes : List (Option String)) :
    APIResult UploadResults :=
  let results := runUploads plan.workouts outcomes
  if results.failed > 0 then
    .failure ("Uploaded " ++ toString results.succeeded ++ " workouts, " ++
      toString results.failed ++ " failed. Errors: " ++ joinWith "; " results.errors)
  else .success results

/-! ## Theorems -/

/-- Concrete workout of the C4 scenario:
`{type: "run", duration: 30, distance: 5, intensity: "easy"}`, no
intervals list, empty description. -/
def c4Workout : Workout :=
  { id := "w1", date := "2024-01-01", type := "run", name := "Easy Run",
    description := "", duration := some 30, distance := some 5,
    intensity := some "easy", intervals := none, notes := none }

/-- C4 (counterexample): the single synthesized main-set line of the
scenario workout is rendered with the interval bullet prefix, so the
output is not the bare string "5.0km Easy pace" the claim states. -/
theorem simple_run_line_counterexample :
    formatWorkoutForIntervalsICU c4Workout [] ≠ "5.0km Easy pace" := by decide

/-- C4 (amended): formatting the workout
`{type: "run", duration: 30, distance: 5, intensity: "easy"}` (no
intervals list, empty description) with an empty pace mapping yields the
single unlabeled main-set line "- 5.0km Easy pace" (bullet prefix
included), with no Warmup section, no Cooldown section, and no
"Main Set" header. -/
theorem simple_run_line_formats :
    formatWorkoutForIntervalsICU c4Workout [] = "- 5.0km Easy pace" ∧
    jsIncludes (formatWorkoutForIntervalsICU c4Workout []) "Warmup" = false ∧
    jsIncludes (formatWorkoutForIntervalsICU c4Workout []) "Cooldown" = false ∧
    jsIncludes (formatWorkoutForIntervalsICU c4Workout []) "Main Set" = false := by
  decide

/-- Concrete workout of the C5 scenario: warmup and cooldown lines in the
description and a single 5×1000 m interval with 200 m recovery. -/
def c5Workout : Workout :=
  { id := "w2", date := "2024-01-02", type := "run", name := "Intervals",
    description := "Warmup: 10 minutes easy\nCooldown: 5 minutes easy",
    duration := none, distance := none, intensity := none,
    intervals := some
      [{ repeatCount := 5, duration := 1000, durationType := some "distance",
         intensity := "5K pace", recovery := some 200,
         recoveryIntensity := some "Easy", ramp := none }],
    notes := none }

/-- C5: the scenario workout formats into three sections in the order
Warmup, Main Set, Cooldown, and the main set consists of the lines "5x",
"- 1.0km 5K pace" and "- 200m Easy pace" (the exact line list of the
output is computed). -/
theorem warmup_mainset_cooldown_scenario :
    jsSplitNewline (formatWorkoutForIntervalsICU c5Workout []) =
      ["Warmup", "- 10m utes easy", "", "Main Set", "5x", "- 1.0km 5K pace",
       "- 200m Easy pace", "", "Cooldown", "- 5m utes easy"] := by
  decide

/-- C9: the formatter is a pure function of the workout and the pace
mapping, so two invocations with the same arguments yield the identical
string. -/
theorem formatWorkoutForIntervalsICU_deterministic (w : Workout)
    (pm : List (String × String)) :
    formatWorkoutForIntervalsICU w pm = formatWorkoutForIntervalsICU w pm := rfl

/-- C10: in upload request construction, a workout whose intervals field
is absent or empty keeps its description unchanged on the wire, and the
structured-text formatter is invoked exactly for workouts with a
non-empty intervals list, always with the empty pace mapping. -/
theorem formatWorkoutForAPI_description_policy (w : Workout) :
    ((w.intervals = none ∨ w.intervals = some []) →
      (formatWorkoutForAPI w).description = w.description) ∧
    (∀ i l, w.intervals = some (i :: l) →
      (formatWorkoutForAPI w).description = formatWorkoutForIntervalsICU w []) := by
  constructor
  · rintro (h | h) <;> simp [formatWorkoutForAPI, h]
  · intro i l h
    simp [formatWorkoutForAPI, h]

/-- Concrete workout with an absent intervals field, for the C10 witness. -/
def c10Workout : Workout :=
  { id := "w3", date := "2024-01-03", type := "bike", name := "Spin",
    description := "Just ride", duration := some 60, distance := none,
    intensity := none, intervals := none, notes := none }

/-- C10 (witness): the description policy applied to a concrete workout
without intervals. -/
theorem formatWorkoutForAPI_description_policy_witness :
    (formatWorkoutForAPI c10Workout).description = c10Workout.description :=
  (formatWorkoutForAPI_description_policy c10Workout).1 (Or.inl rfl)

/-- C2: duration rendering of work and recovery segments is a partition
at the unit threshold — a distance-typed value ≥ 1000 renders as
kilometers to one decimal place and below 1000 as whole meters; a
time-typed value ≥ 60 renders as minutes plus leftover seconds when
non-zero and below 60 as whole seconds — and the recovery renderer obeys
the identical rule; the last two conjuncts tie the renderers to
`formatSingleInterval` and `formatRecovery`. -/
theorem duration_rendering_threshold (i : Interval) (workoutType : String)
    (pm : List (String × String)) (b : Bool) (n : Nat) :
    (1000 ≤ n → workDurationStr true n = toFixed1km n ++ "km") ∧
    (n < 1000 → workDurationStr true n = toString n ++ "m") ∧
    (60 ≤ n → n % 60 ≠ 0 →
      workDurationStr false n = toString (n / 60) ++ "m" ++ toString (n % 60) ++ "s") ∧
    (60 ≤ n → n % 60 = 0 → workDurationStr false n = toString (n / 60) ++ "m") ∧
    (n < 60 → workDurationStr false n = toString n ++ "s") ∧
    recoveryDurationStr b n = workDurationStr b n ∧
    (i.ramp = none →
      formatSingleInterval i workoutType pm =
        workDurationStr (i.durationType = some "distance") i.duration ++ " " ++
          formatIntensity i.intensity workoutType pm) ∧
    (∀ r, i.recovery = some r → r ≠ 0 →
      formatRecovery i workoutType pm =
        recoveryDurationStr (i.durationType = some "distance") r ++ " " ++
          formatIntensity (jsOrStr i.recoveryIntensity "Easy") workoutType pm) := by
  refine ⟨?_, ?_, ?_, ?_, ?_, ?_, ?_, ?_⟩
  · intro h; simp [workDurationStr, h]
  · intro h; simp [workDurationStr, Nat.not_le.mpr h]
  · intro h hm; simp [workDurationStr, h, Nat.pos_of_ne_zero hm]
  · intro h hm; simp [workDurationStr, h, hm]
  · intro h; simp [workDurationStr, Nat.not_le.mpr h]
  · cases b <;> rfl
  · intro h; simp [formatSingleInterval, h]
  · intro r hr hr0; simp [formatRecovery, hr, hr0]

/-- Concrete interval for the C2 witness: a 1200 m distance-typed work
segment with a 200 m recovery. -/
def c2Interval : Interval :=
  { repeatCount := 1, duration := 1200, durationType := some "distance",
    intensity := "tempo", recovery := some 200, recoveryIntensity := some "Easy",
    ramp := none }

/-- C2 (witness): the threshold partition and the work/recovery agreement
evaluated at concrete inputs on both sides of both thresholds. -/
theorem duration_rendering_threshold_witness :
    workDurationStr true 1500 = toFixed1km 1500 ++ "km" ∧
    workDurationStr true 999 = toString 999 ++ "m" ∧
    workDurationStr false 90 = toString (90 / 60) ++ "m" ++ toString (90 % 60) ++ "s" ∧
    workDurationStr false 120 = toString (120 / 60) ++ "m" ∧
    workDurationStr false 45 = toString 45 ++ "s" ∧
    recoveryDurationStr true 200 = workDurationStr true 200 ∧
    formatSingleInterval c2Interval "run" [] =
      workDurationStr (c2Interval.durationType = some "distance") c2Interval.duration ++ " " ++
        formatIntensity c2Interval.intensity "run" [] ∧
    formatRecovery c2Interval "run" [] =
      recoveryDurationStr (c2Interval.durationType = some "distance") 200 ++ " " ++
        formatIntensity (jsOrStr c2Interval.recoveryIntensity "Easy") "run" [] :=
  ⟨(duration_rendering_threshold c2Interval "run" [] true 1500).1 (by decide),
   (duration_rendering_threshold c2Interval "run" [] true 999).2.1 (by decide),
   (duration_rendering_threshold c2Interval "run" [] true 90).2.2.1 (by decide) (by decide),
   (duration_rendering_threshold c2Interval "run" [] true 120).2.2.2.1 (by decide) (by decide),
   (duration_rendering_threshold c2Interval "run" [] true 45).2.2.2.2.1 (by decide),
   (duration_rendering_threshold c2Interval "run" [] true 200).2.2.2.2.2.1,
   (duration_rendering_threshold c2Interval "run" [] true 0).2.2.2.2.2.2.1 rfl,
   (duration_rendering_threshold c2Interval "run" [] true 0).2.2.2.2.2.2.2 200 rfl (by decide)⟩

/-- C3 (counterexample): the pace-mapping lookup is a truthiness test, so
a label mapped to the empty string falls through to the lexicon rules
("easy" ↦ "" yields "Easy pace", not the mapped value verbatim); and the
"already contains pace" test is case-insensitive, so a mapped value
containing "Pace" but not "pace" gets nothing appended although the claim
requires an appended "Pace" there. -/
theorem formatIntensity_mapped_counterexample :
    recordGet [("easy", "")] "easy" = some "" ∧
    formatIntensity "easy" "run" [("easy", "")] = "Easy pace" ∧
    recordGet [("x", "5:00/km Pace")] "x" = some "5:00/km Pace" ∧
    jsIncludes "5:00/km Pace" "/km" = true ∧
    jsIncludes "5:00/km Pace" "pace" = false ∧
    formatIntensity "x" "run" [("x", "5:00/km Pace")] = "5:00/km Pace" := by
  decide

/-- C3 (amended): for every non-empty intensity label mapped by the pace
mapping to a non-empty value, formatIntensity returns the mapped value
verbatim, except that " Pace" is appended exactly when the value contains
"/km" or "/mi" or begins with a digits-colon-digits prefix and its
lowercase form does not contain "pace"; the lookup is case-sensitive in
the original label and such a mapped label never falls through to the
zone/percent/lexicon rules. -/
theorem formatIntensity_mapped_truthy (pm : List (String × String))
    (label v workoutType : String) (hlabel : label ≠ "")
    (hlookup : recordGet pm label = some v) (hv : v ≠ "") :
    formatIntensity label workoutType pm =
      if (jsIncludes v "/km" || jsIncludes v "/mi" || digitsColonDigits v) &&
          !(jsIncludes (jsToLower v) "pace") then
        v ++ " Pace"
      else v := by
  unfold formatIntensity
  rw [if_neg hlabel, hlookup]
  simp only [if_neg hv]
  rcases h1 : jsIncludes v "/km" || jsIncludes v "/mi" || digitsColonDigits v <;>
    rcases h2 : jsIncludes (jsToLower v) "pace" <;>
    simp [h1, h2]

/-- C3 (witness): a pace-shaped mapped value gets " Pace" appended. -/
theorem formatIntensity_mapped_truthy_witness :
    formatIntensity "easy" "run" [("easy", "6:50-7:10/km")] = "6:50-7:10/km Pace" := by
  rw [formatIntensity_mapped_truthy [("easy", "6:50-7:10/km")] "easy" "6:50-7:10/km" "run"
    (by decide) (by decide) (by decide)]
  decide

/-- Number of failing outcomes in an outcome list. -/
def countSome (outcomes : List (Option String)) : Nat :=
  (outcomes.filter Option.isSome).length

/-- Expected error strings of a batch: one string
`"<name> (<date>): <message>"` per failing pair, in order. -/
def uploadErrorStrings (pairs : List (Workout × Option String)) : List String :=
  pairs.filterMap fun p => p.2.map fun e => p.1.name ++ " (" ++ p.1.date ++ "): " ++ e

/-- Upload-loop bookkeeping: counts and error strings of `runUploads` as
functions of the outcome list, by simultaneous induction. -/
theorem runUploads_spec (ws : List Workout) (outcomes : List (Option String))
    (h : outcomes.length = ws.length) :
    (runUploads ws outcomes).failed = countSome outcomes ∧
    (runUploads ws outcomes).succeeded = outcomes.length - countSome outcomes ∧
    (runUploads ws outcomes).errors = uploadErrorStrings (ws.zip outcomes) ∧
    (runUploads ws outcomes).errors.length = countSome outcomes := by
  induction ws generalizing outcomes with
  | nil =>
    cases outcomes with
    | nil => simp [runUploads, countSome, uploadErrorStrings]
    | cons o os => simp at h
  | cons w ws ih =>
    cases outcomes with
    | nil => simp at h
    | cons o os =>
      simp only [List.length_cons, Nat.succ.injEq] at h
      obtain ⟨hf, hs, he, hl⟩ := ih os h
      simp only [countSome] at hf hs hl
      have hcount : (os.filter Option.isSome).length ≤ os.length :=
        List.length_filter_le _ _
      cases o with
      | none =>
        refine ⟨?_, ?_, ?_, ?_⟩
        · simp only [runUploads, countSome, List.filter_cons, Option.isSome_none,
            Bool.false_eq_true, if_neg, reduceIte]
          exact hf
        · simp only [runUploads, countSome, List.filter_cons, Option.isSome_none,
            Bool.false_eq_true, reduceIte, List.length_cons]
          omega
        · simp only [runUploads, uploadErrorStrings, List.zip_cons_cons,
            List.filterMap_cons, Option.map_none]
          simpa [uploadErrorStrings] using he
        · simp only [runUploads, countSome, List.filter_cons, Option.isSome_none,
            Bool.false_eq_true, reduceIte]
          exact hl
      | some e =>
        refine ⟨?_, ?_, ?_, ?_⟩
        · simp only [runUploads, countSome, List.filter_cons, Option.isSome_some,
            reduceIte, List.length_cons]
          omega
        · simp only [runUploads, countSome, List.filter_cons, Option.isSome_some,
            reduceIte, List.length_cons]
          omega
        · simp only [runUploads, uploadErrorStrings, List.zip_cons_cons,
            List.filterMap_cons, Option.map_some]
          simpa [uploadErrorStrings] using he
        · simp only [runUploads, countSome, List.filter_cons, Option.isSome_some,
            reduceIte, List.length_cons, List.length_cons]
          omega

/-- C1: uploading a plan of N workouts with K individually failing
uploads yields succeeded = N−K and failed = K, exactly K error strings of
the form "<name> (<date>): <message>" in order, an overall success
exactly when K = 0, and on any failure an aggregate error carrying the
joined per-item messages. -/
theorem uploadWorkoutPlan_batch_aggregation (plan : TrainingPlan)
    (outcomes : List (Option String)) (h : outcomes.length = plan.workouts.length) :
    (runUploads plan.workouts outcomes).succeeded =
      plan.workouts.length - countSome outcomes ∧
    (runUploads plan.workouts outcomes).failed = countSome outcomes ∧
    (runUploads plan.workouts outcomes).errors =
      uploadErrorStrings (plan.workouts.zip outcomes) ∧
    (runUploads plan.workouts outcomes).errors.length = countSome outcomes ∧
    ((uploadWorkoutPlan plan outcomes).isSuccess = true ↔ countSome outcomes = 0) ∧
    (countSome outcomes = 0 →
      uploadWorkoutPlan plan outcomes = .success (runUploads plan.workouts outcomes)) ∧
    (0 < countSome outcomes →
      uploadWorkoutPlan plan outcomes =
        .failure ("Uploaded " ++ toString (runUploads plan.workouts outcomes).succeeded ++
          " workouts, " ++ toString (runUploads plan.workouts outcomes).failed ++
          " failed. Errors: " ++ joinWith "; " (runUploads plan.workouts outcomes).errors)) := by
  obtain ⟨hf, hs, he, hl⟩ := runUploads_spec plan.workouts outcomes h
  rw [h] at hs
  refine ⟨hs, hf, he, hl, ?_, ?_, ?_⟩
  · rcases Nat.eq_zero_or_pos (countSome outcomes) with hz | hp
    · simp [uploadWorkoutPlan, hf, hz, APIResult.isSuccess]
    · simp only [uploadWorkoutPlan, hf]
      rw [if_pos hp]
      simp [APIResult.isSuccess]
      omega
  · intro hz
    simp [uploadWorkoutPlan, hf, hz]
  · intro hp
    simp only [uploadWorkoutPlan, hf]
    rw [if_pos hp]

/-- Concrete two-workout plan for the C1 witness. -/
def c1Plan : TrainingPlan :=
  { id := "p1", name := "Plan", startDate := "2024-01-01", endDate := "2024-02-01",
    weeks := 5,
    workouts :=
      [{ id := "a", date := "2024-01-01", type := "run", name := "Run A",
         description := "easy", duration := some 30, distance := none,
         intensity := none, intervals := none, notes := none },
       { id := "b", date := "2024-01-02", type := "run", name := "Run B",
         description := "easy", duration := some 30, distance := none,
         intensity := none, intervals := none, notes := none }],
    source := none }

/-- C1 (witness): a two-workout batch in which the second upload fails
with message "boom" reports one failure, one formatted error string, and
an aggregate failure. -/
theorem uploadWorkoutPlan_batch_aggregation_witness :
    (runUploads c1Plan.workouts [none, some "boom"]).failed =
      countSome [none, some "boom"] ∧
    (runUploads c1Plan.workouts [none, some "boom"]).errors =
      uploadErrorStrings (c1Plan.workouts.zip [none, some "boom"]) ∧
    ((uploadWorkoutPlan c1Plan [none, some "boom"]).isSuccess = true ↔
      countSome [none, some "boom"] = 0) :=
  ⟨(uploadWorkoutPlan_batch_aggregation c1Plan [none, some "boom"] (by decide)).2.1,
   (uploadWorkoutPlan_batch_aggregation c1Plan [none, some "boom"] (by decide)).2.2.1,
   (uploadWorkoutPlan_batch_aggregation c1Plan [none, some "boom"] (by decide)).2.2.2.2.1⟩

/-- Membership of an invalid workout's aggregated, index-prefixed error
string in the per-workout error block, for any base index. -/
theorem indexedWorkoutErrors_mem (ws : List Validator.PartialWorkout) :
    ∀ (k i : Nat) (w : Validator.PartialWorkout), ws.get? i = some w →
      (Validator.validateWorkout w).valid = false →
      ("Workout " ++ toString (k + i + 1) ++ ": " ++
        joinWith ", " (Validator.validateWorkout w).errors) ∈
          Validator.indexedWorkoutErrors k ws := by
  induction ws with
  | nil =>
    intro k i w hget
    simp at hget
  | cons w0 ws ih =>
    intro k i w hget hval
    cases i with
    | zero =>
      simp only [List.get?_cons_zero, Option.some.injEq] at hget
      subst hget
      simp [Validator.indexedWorkoutErrors, hval]
    | succ j =>
      have hmem := ih (k + 1) j w (by simpa using hget) hval
      have harith : k + (j + 1) + 1 = k + 1 + j + 1 := by omega
      rw [harith]
      simp only [Validator.indexedWorkoutErrors]
      exact List.mem_append_right _ hmem

/-- Shape of the per-workout error block: exactly one aggregated,
index-prefixed string per invalid workout, in list order, and none for a
valid one. -/
theorem indexedWorkoutErrors_eq (ws : List Validator.PartialWorkout) :
    ∀ k, Validator.indexedWorkoutErrors k ws =
      (List.enumFrom k ws).filterMap fun q =>
        if (Validator.validateWorkout q.2).valid = true then none
        else some ("Workout " ++ toString (q.1 + 1) ++ ": " ++
          joinWith ", " (Validator.validateWorkout q.2).errors) := by
  induction ws with
  | nil => intro k; rfl
  | cons w ws ih =>
    intro k
    simp only [Validator.indexedWorkoutErrors, List.enumFrom, List.filterMap_cons, ih (k + 1)]
    cases hval : (Validator.validateWorkout w).valid with
    | false => simp [hval]
    | true => simp [hval]

/-- Concrete fully-empty workout violating five rules at once, for the C7
counterexample. -/
def c7BadWorkout : Validator.PartialWorkout :=
  { id := none, date := none, type := none, name := none, description := none,
    duration := none, distance := none, intensity := none }

/-- Concrete plan with valid plan-level fields and one five-rule-violating
workout, for the C7 counterexample. -/
def c7Plan : Validator.PartialPlan :=
  { id := some "p", name := some "Plan", startDate := some "2024-01-01",
    endDate := some "2024-02-01", workouts := some [c7BadWorkout] }

/-- C7 (counterexample): a workout violating five rules contributes a
single aggregated error string to the plan's error list, so the plan
validation does not report one error string per violated rule. -/
theorem validateTrainingPlan_aggregated_errors_counterexample :
    (Validator.validateWorkout c7BadWorkout).errors.length = 5 ∧
    (Validator.validateTrainingPlan c7Plan).errors =
      ["Workout 1: Workout ID is required, Workout date is required, " ++
        "Workout type is required, Workout name is required, " ++
        "Workout description is required"] ∧
    (Validator.validateTrainingPlan c7Plan).errors.length = 1 := by
  decide

/-- C7 (amended): validateTrainingPlan passes exactly when its error list
is empty; it does not short-circuit — every violated plan-level rule (id,
name, start/end date presence and format, workouts-array presence,
non-empty workout list, date ordering) contributes its own error string
even when others are violated, and the per-workout section of the error
list is exactly one error string per invalid workout, in order,
aggregating all of that workout's rule violations joined by ", ",
prefixed with the workout's 1-based index, with no string for a valid
workout. -/
theorem validateTrainingPlan_reporting (p : Validator.PartialPlan) :
    ((Validator.validateTrainingPlan p).valid = true ↔
      (Validator.validateTrainingPlan p).errors = []) ∧
    (jsTruthyStr p.id = false →
      "Plan ID is required" ∈ (Validator.validateTrainingPlan p).errors) ∧
    (jsTruthyStr p.name = false →
      "Plan name is required" ∈ (Validator.validateTrainingPlan p).errors) ∧
    (jsTruthyStr p.startDate = false →
      "Start date is required" ∈ (Validator.validateTrainingPlan p).errors) ∧
    (jsTruthyStr p.startDate = true →
      Validator.isValidISODate (p.startDate.getD "") = false →
      "Invalid start date format" ∈ (Validator.validateTrainingPlan p).errors) ∧
    (jsTruthyStr p.endDate = false →
      "End date is required" ∈ (Validator.validateTrainingPlan p).errors) ∧
    (jsTruthyStr p.endDate = true →
      Validator.isValidISODate (p.endDate.getD "") = false →
      "Invalid end date format" ∈ (Validator.validateTrainingPlan p).errors) ∧
    (p.workouts = none →
      "Workouts array is required" ∈ (Validator.validateTrainingPlan p).errors) ∧
    (p.workouts = some [] →
      "Plan must have at least one workout" ∈ (Validator.validateTrainingPlan p).errors) ∧
    (jsTruthyStr p.startDate = true → jsTruthyStr p.endDate = true →
      Validator.isValidISODate (p.startDate.getD "") = true →
      Validator.isValidISODate (p.endDate.getD "") = true →
      dateEpochDays (p.endDate.getD "") ≤ dateEpochDays (p.startDate.getD "") →
      "End date must be after start date" ∈ (Validator.validateTrainingPlan p).errors) ∧
    (∀ ws, p.workouts = some ws →
      List.IsSuffix
        ((List.enumFrom 0 ws).filterMap fun q =>
          if (Validator.validateWorkout q.2).valid = true then none
          else some ("Workout " ++ toString (q.1 + 1) ++ ": " ++
            joinWith ", " (Validator.validateWorkout q.2).errors))
        (Validator.validateTrainingPlan p).errors) := by
  refine ⟨?_, ?_, ?_, ?_, ?_, ?_, ?_, ?_, ?_, ?_, ?_⟩
  · have hval : (Validator.validateTrainingPlan p).valid =
        (Validator.validateTrainingPlan p).errors.isEmpty := rfl
    rw [hval, List.isEmpty_iff]
  · intro hid
    simp [Validator.validateTrainingPlan, hid]
  · intro hname
    simp [Validator.validateTrainingPlan, hname]
  · intro hsd
    simp [Validator.validateTrainingPlan, hsd]
  · intro hsd hfmt
    simp [Validator.validateTrainingPlan, hsd, hfmt]
  · intro hed
    simp [Validator.validateTrainingPlan, hed]
  · intro hed hfmt
    simp [Validator.validateTrainingPlan, hed, hfmt]
  · intro hw
    simp [Validator.validateTrainingPlan, hw]
  · intro hw
    simp [Validator.validateTrainingPlan, hw]
  · intro hsd hed hsv hev hle
    simp [Validator.validateTrainingPlan, hsd, hed, hsv, hev, hle]
  · intro ws hws
    rw [← indexedWorkoutErrors_eq ws 0]
    simp only [Validator.validateTrainingPlan, hws]
    exact List.suffix_append _ _

/-- C7 (witness): the reporting properties applied to a concrete plan
with a missing id, an end date before its start date, and one invalid
workout. -/
theorem validateTrainingPlan_reporting_witness :
    "Plan ID is required" ∈
      (Validator.validateTrainingPlan
        { id := none, name := some "Plan", startDate := some "2024-03-10",
          endDate := some "2024-03-09", workouts := some [c7BadWorkout] }).errors ∧
    "End date must be after start date" ∈
      (Validator.validateTrainingPlan
        { id := none, name := some "Plan", startDate := some "2024-03-10",
          endDate := some "2024-03-09", workouts := some [c7BadWorkout] }).errors ∧
    List.IsSuffix
      ((List.enumFrom 0 [c7BadWorkout]).filterMap fun q =>
        if (Validator.validateWorkout q.2).valid = true then none
        else some ("Workout " ++ toString (q.1 + 1) ++ ": " ++
          joinWith ", " (Validator.validateWorkout q.2).errors))
      (Validator.validateTrainingPlan
        { id := none, name := some "Plan", startDate := some "2024-03-10",
          endDate := some "2024-03-09", workouts := some [c7BadWorkout] }).errors :=
  ⟨(validateTrainingPlan_reporting _).2.1 (by decide),
   (validateTrainingPlan_reporting _).2.2.2.2.2.2.2.2.2.1 (by decide) (by decide)
     (by decide) (by decide) (by decide),
   (validateTrainingPlan_reporting _).2.2.2.2.2.2.2.2.2.2 [c7BadWorkout] rfl⟩

/-- C8: a plan whose start date equals its end date (a valid calendar
date) fails validation and reports "End date must be after start date". -/
theorem validateTrainingPlan_equal_dates_fail (p : Validator.PartialPlan) (s : String)
    (hs : p.startDate = some s) (he : p.endDate = some s)
    (hv : Validator.isValidISODate s = true) :
    (Validator.validateTrainingPlan p).valid = false ∧
    "End date must be after start date" ∈ (Validator.validateTrainingPlan p).errors := by
  have hsne : s ≠ "" := by
    intro h0
    subst h0
    simp [Validator.isValidISODate, iso8601Shape] at hv
  have hmem : "End date must be after start date" ∈
      (Validator.validateTrainingPlan p).errors := by
    simp [Validator.validateTrainingPlan, hs, he, hv, jsTruthyStr, hsne]
  refine ⟨?_, hmem⟩
  have hval : (Validator.validateTrainingPlan p).valid =
      (Validator.validateTrainingPlan p).errors.isEmpty := rfl
  rw [hval]
  rcases hE : (Validator.validateTrainingPlan p).errors with _ | ⟨a, l⟩
  · rw [hE] at hmem
    cases hmem
  · simp

/-- Concrete plan with equal start and end dates, for the C8 witness. -/
def c8Plan : Validator.PartialPlan :=
  { id := some "p", name := some "Plan", startDate := some "2024-03-10",
    endDate := some "2024-03-10", workouts := some [] }

/-- C8 (witness): the equal-dates failure at a concrete plan. -/
theorem validateTrainingPlan_equal_dates_fail_witness :
    (Validator.validateTrainingPlan c8Plan).valid = false ∧
    "End date must be after start date" ∈ (Validator.validateTrainingPlan c8Plan).errors :=
  validateTrainingPlan_equal_dates_fail c8Plan "2024-03-10" rfl rfl (by decide)

/-- The per-workout JSON checks do not depend on the index (the index
only enters the error message): a workout accepted at one index is
accepted at every index. -/
theorem jsonValidateWorkout_ok_index (w : JsonParser.RawWorkout) (i j : Nat)
    (h : ∃ v, JsonParser.validateWorkout w i = .ok v) :
    ∃ v, JsonParser.validateWorkout w j = .ok v := by
  obtain ⟨v, hv⟩ := h
  unfold JsonParser.validateWorkout at hv ⊢
  split_ifs at hv ⊢
  all_goals
    first
      | exact Except.noConfusion hv
      | exact ⟨_, rfl⟩

/-- A list of individually accepted raw workouts passes the import loop
at every base index. -/
theorem jsonValidateWorkouts_ok (workoutId : Nat → String)
    (ws : List JsonParser.RawWorkout)
    (h : ∀ w ∈ ws, ∃ v, JsonParser.validateWorkout w 0 = .ok v) :
    ∀ i, ∃ l, JsonParser.validateWorkouts workoutId i ws = .ok l := by
  induction ws with
  | nil => intro i; exact ⟨[], rfl⟩
  | cons w ws ih =>
    intro i
    obtain ⟨v, hv⟩ :=
      jsonValidateWorkout_ok_index w 0 i (h w (List.mem_cons_self w ws))
    obtain ⟨l, hl⟩ := ih (fun w' hw' => h w' (List.mem_cons_of_mem w hw')) (i + 1)
    refine ⟨{ v with id := workoutId i } :: l, ?_⟩
    simp [JsonParser.validateWorkouts, hv, hl]

/-- Concrete raw plan whose end date equals its start date, for the C6
counterexample. -/
def c6Data : JsonParser.RawPlan :=
  { name := some "Plan", startDate := some "2024-01-01", endDate := some "2024-01-01",
    workouts := some [{ date := some "2024-01-01", type := some "run",
                        name := some "W1" }] }

/-- C6 (counterexample): the direct JSON import accepts a plan whose
endDate equals its startDate (both well-formed), producing a TrainingPlan
instead of the failure the claim requires. -/
theorem json_import_equal_dates_counterexample :
    (JsonParser.validateTrainingPlanJSON "p" (fun _ => "w") c6Data).isOk = true := by
  decide

/-- C6 (amended): the direct JSON import validates presence and format
rules (name, YYYY-MM-DD date shape, non-empty workouts array, per-workout
fields) but never compares endDate with startDate: every otherwise-valid
plan whose endDate is not strictly after its startDate (equal or even
strictly before, both well-formed calendar dates) is imported
successfully as a TrainingPlan carrying those very dates, rather than
failing. -/
theorem json_import_no_date_order_check (planId : String) (workoutId : Nat → String)
    (planName s e : String) (ws : List JsonParser.RawWorkout)
    (hname : planName ≠ "")
    (hs : Validator.isValidISODate s = true)
    (he : Validator.isValidISODate e = true)
    (horder : dateEpochDays e ≤ dateEpochDays s)
    (hws : ws ≠ [])
    (hok : ∀ w ∈ ws, ∃ v, JsonParser.validateWorkout w 0 = .ok v) :
    ∃ plan, JsonParser.validateTrainingPlanJSON planId workoutId
        { name := some planName, startDate := some s, endDate := some e,
          workouts := some ws } = .ok plan ∧
      plan.startDate = s ∧ plan.endDate = e := by
  simp only [Validator.isValidISODate, Bool.and_eq_true] at hs he
  have hsne : s ≠ "" := by
    intro h0
    subst h0
    simp [iso8601Shape] at hs
  have hene : e ≠ "" := by
    intro h0
    subst h0
    simp [iso8601Shape] at he
  obtain ⟨l, hl⟩ := jsonValidateWorkouts_ok workoutId ws hok 0
  have hwsE : ws.isEmpty = false := by
    cases ws with
    | nil => exact absurd rfl hws
    | cons a t => rfl
  refine ⟨{ id := planId, name := planName, startDate := s, endDate := e,
            weeks := Validator.calculateWeeks s e, workouts := l,
            source := some "json-import" }, ?_, rfl, rfl⟩
  simp [JsonParser.validateTrainingPlanJSON, jsTruthyStr, hname, hsne, hene,
    hs.1, he.1, hwsE, hl]

/-- C6 (witness): the amended acceptance applied to a concrete raw plan
whose end date lies strictly before its start date. -/
theorem json_import_no_date_order_check_witness :
    ∃ plan, JsonParser.validateTrainingPlanJSON "p" (fun _ => "w")
        { name := some "Plan", startDate := some "2024-05-05", endDate := some "2024-05-04",
          workouts := some [{ date := some "2024-05-06", type := some "run",
                              name := some "W1" }] } = .ok plan ∧
      plan.startDate = "2024-05-05" ∧ plan.endDate = "2024-05-04" :=
  json_import_no_date_order_check "p" (fun _ => "w") "Plan" "2024-05-05" "2024-05-04"
    [{ date := some "2024-05-06", type := some "run", name := some "W1" }]
    (by decide) (by decide) (by decide) (by decide) (by decide)
    (by
      intro w hw
      simp only [List.mem_singleton] at hw
      subst hw
      exact ⟨_, rfl⟩)

end IntervalsIcu
